import Mathlib

/-!
Verification development for the multi-document chat application.

Each Python module relevant to the frozen claims is shallowly embedded:
pure methods become Lean functions, stateful methods become explicit
state-passing functions, exceptions become `Except`, and `None` becomes
`Option`.  Library calls (langchain text splitter, FAISS, tiktoken,
hashlib) are modelled as explicit function parameters or, where their
observable behaviour decides a claim, from their documented behaviour,
with a comment saying so.
-/

/-! ## Embedding of src/conversation.py (`ConversationManager`) -/

/-- A chat message as used by the conversation manager: langchain
`BaseMessage` exposes a `type` tag ("human" / "ai") and a `content` string. -/
structure Message where
  type : String
  content : String
deriving DecidableEq, Repr

/-- A retrieved source document as seen by `add_message`: only the optional
"source" entry of its metadata is consulted. -/
structure SourceDoc where
  source : Option String
deriving DecidableEq, Repr

/-- The `metadata` dict of `ConversationManager`.  The Python `set` of
document sources is modelled as a duplicate-free list in insertion order. -/
structure ConvMetadata where
  created_at : String
  total_messages : Nat
  document_sources : List String
deriving DecidableEq, Repr

/-- State of a `ConversationManager` instance. -/
structure ConvState where
  max_history : Nat
  context_window : Nat
  include_document_context : Bool
  history : List Message
  metadata : ConvMetadata
deriving DecidableEq, Repr

/-- Python set insertion (`s.add(x)`) on the list model: append when absent. -/
def setAdd (l : List String) (x : String) : List String :=
  if x ∈ l then l else l ++ [x]

/-- The source-tracking loop of `add_message`: for each doc whose metadata
has a "source" key, add it to the document-source set. -/
def trackSources (sources : List String) (docs : List SourceDoc) : List String :=
  docs.foldl (fun acc d =>
    match d.source with
    | some s => setAdd acc s
    | none => acc) sources

/-- Python slice `l[-n:]` for a natural `n`.  For `n = 0` this is `l[0:]`,
i.e. the whole list; for `n ≥ 1` it is the last `n` elements. -/
def pySliceLast (l : List α) (n : Nat) : List α :=
  if n = 0 then l else l.drop (l.length - n)

/-- The constructor of `ConversationManager`: empty history, fresh metadata. -/
def ConvState.init (max_history context_window : Nat)
    (include_document_context : Bool) (now : String) : ConvState :=
  { max_history := max_history
    context_window := context_window
    include_document_context := include_document_context
    history := []
    metadata := { created_at := now, total_messages := 0, document_sources := [] } }

/-- `ConversationManager.add_message`: append the message, bump
`total_messages`, track sources, then trim the history with the slice
`history[-max_history * 2:]` whenever its length exceeds `max_history * 2`. -/
def ConversationManager.add_message (st : ConvState) (msg : Message)
    (source_documents : List SourceDoc) : ConvState :=
  let history := st.history ++ [msg]
  let meta := { st.metadata with total_messages := st.metadata.total_messages + 1 }
  let meta :=
    if source_documents ≠ [] ∧ st.include_document_context = true then
      { meta with document_sources := trackSources meta.document_sources source_documents }
    else meta
  let history :=
    if st.max_history * 2 < history.length then pySliceLast history (st.max_history * 2)
    else history
  { st with history := history, metadata := meta }

/-- `ConversationManager.clear_history`: reset history and metadata. -/
def ConversationManager.clear_history (st : ConvState) (now : String) : ConvState :=
  { st with history := []
            metadata := { created_at := now, total_messages := 0, document_sources := [] } }

/-- Run a sequence of `add_message` calls (no source documents). -/
def runAdds (st : ConvState) (msgs : List Message) : ConvState :=
  msgs.foldl (fun s m => ConversationManager.add_message s m []) st

/-- The last `n` elements of a list (saturating): reference function used to
state which messages survive trimming. -/
def takeLast (l : List α) (n : Nat) : List α :=
  l.drop (l.length - n)

/-! ### JSON export (`ConversationManager.export_to_json`)

The export builds a Python dict/list tree and serialises it with
`json.dumps`; the caller re-parses with `json.loads`.  On such trees the
dumps/loads round trip is the identity, so the serialised form is modelled
by the value tree itself (`JVal`), and re-parsing by structured field
extraction from that tree. -/

/-- A JSON value tree, restricted to the shapes the export produces. -/
inductive JVal where
  | jstr : String → JVal
  | jnum : Int → JVal
  | jarr : List JVal → JVal
  | jobj : List (String × JVal) → JVal
deriving Repr

/-- Field lookup in a JSON object. -/
def JVal.lookupKey (v : JVal) (k : String) : Option JVal :=
  match v with
  | .jobj fields => fields.lookup k
  | _ => none

/-- Read a JSON string. -/
def JVal.asStr : JVal → Option String
  | .jstr s => some s
  | _ => none

/-- Read a JSON number. -/
def JVal.asNum : JVal → Option Int
  | .jnum n => some n
  | _ => none

/-- Read a JSON array. -/
def JVal.asArr : JVal → Option (List JVal)
  | .jarr xs => some xs
  | _ => none

/-- One entry of the exported "messages" array. -/
structure ExportMessage where
  type : String
  content : String
  timestamp : String
deriving DecidableEq, Repr

/-- The parsed form of the whole JSON export. -/
structure ExportData where
  created_at : String
  total_messages : Int
  document_sources : List String
  messages : List ExportMessage
deriving DecidableEq, Repr

/-- `ConversationManager.export_to_json`: the JSON tree handed to
`json.dumps`.  The metadata dict spreads `self.metadata` and overrides
`document_sources` with `list(...)`; each message becomes a dict of its
type, content and an export timestamp. -/
def ConversationManager.export_to_json (st : ConvState) (now : String) : JVal :=
  JVal.jobj
    [ ("metadata", JVal.jobj
        [ ("created_at", JVal.jstr st.metadata.created_at)
        , ("total_messages", JVal.jnum st.metadata.total_messages)
        , ("document_sources", JVal.jarr (st.metadata.document_sources.map JVal.jstr)) ])
    , ("messages", JVal.jarr (st.history.map (fun m =>
        JVal.jobj
          [ ("type", JVal.jstr m.type)
          , ("content", JVal.jstr m.content)
          , ("timestamp", JVal.jstr now) ]))) ]

/-- Map a fallible function over a list, failing when any element fails. -/
def optionMapM (f : α → Option β) : List α → Option (List β)
  | [] => some []
  | a :: as => do
    let b ← f a
    let bs ← optionMapM f as
    pure (b :: bs)

/-- Re-parse one message object of the export. -/
def parseExportMessage (v : JVal) : Option ExportMessage := do
  let t ← (← v.lookupKey "type").asStr
  let c ← (← v.lookupKey "content").asStr
  let ts ← (← v.lookupKey "timestamp").asStr
  pure { type := t, content := c, timestamp := ts }

/-- Re-parse the whole JSON export. -/
def parseExport (v : JVal) : Option ExportData := do
  let meta ← v.lookupKey "metadata"
  let ca ← (← meta.lookupKey "created_at").asStr
  let tm ← (← meta.lookupKey "total_messages").asNum
  let srcsJ ← (← meta.lookupKey "document_sources").asArr
  let srcs ← optionMapM JVal.asStr srcsJ
  let msgsJ ← (← v.lookupKey "messages").asArr
  let msgs ← optionMapM parseExportMessage msgsJ
  pure { created_at := ca, total_messages := tm, document_sources := srcs, messages := msgs }

/-! ## Embedding of src/config_manager.py (`ConfigManager.get`) -/

/-- A Python configuration value: scalars, lists and string-keyed dicts. -/
inductive CVal where
  | vstr : String → CVal
  | vint : Int → CVal
  | vbool : Bool → CVal
  | vnull : CVal
  | vlist : List CVal → CVal
  | vdict : List (String × CVal) → CVal
deriving Repr

/-- One Python indexing step `current[k]` with a string key: a dict yields
the entry or raises `KeyError`; every non-dict raises `TypeError`. -/
def indexStep (c : CVal) (k : String) : Except String CVal :=
  match c with
  | .vdict es =>
    match es.lookup k with
    | some v => .ok v
    | none => .error "KeyError"
  | _ => .error "TypeError"

/-- The lookup loop of `ConfigManager.get`: index with each dotted segment
in turn, propagating the first exception. -/
def getPath : List String → CVal → Except String CVal
  | [], c => .ok c
  | k :: ks, c =>
    match indexStep c k with
    | .ok v => getPath ks v
    | .error e => .error e

/-- `ConfigManager.get`: split the key on dots, walk the nested mapping,
and return the default whenever a `KeyError` or `TypeError` is raised. -/
def ConfigManager.get (cfg : CVal) (key : String) (default : CVal) : CVal :=
  match getPath (key.splitOn ".") cfg with
  | .ok v => v
  | .error _ => default

/-- Reference resolver following the words of the claim: a path resolves
exactly when every segment steps through a nested mapping. -/
def resolvePath : List String → CVal → Option CVal
  | [], c => some c
  | k :: ks, c =>
    match c with
    | .vdict es =>
      match es.lookup k with
      | some v => resolvePath ks v
      | none => none
    | _ => none

/-! ## Embedding of src/document_processor.py (`DocumentProcessor`) -/

/-- Split a character list at every dot. -/
def splitDots : List Char → List (List Char)
  | [] => [[]]
  | c :: cs =>
    let r := splitDots cs
    if c = '.' then [] :: r
    else
      match r with
      | [] => [[c]]
      | h :: t => (c :: h) :: t

/-- Python `os.path.splitext(name)[1][1:].lower()` for a plain file name:
the lower-cased text after the last dot, where leading dots of the name do
not start an extension; empty when no such dot exists. -/
def fileExt (name : String) : String :=
  let cs := name.toList
  let lead := cs.takeWhile (fun c => c = '.')
  let rest := cs.drop lead.length
  let segs := splitDots rest
  match segs with
  | [] => ""
  | [_] => ""
  | _ :: _ :: _ => String.mk ((segs.getLastD []).map Char.toLower)

/-- The text-splitter object: its configured sizes and the library splitting
function `split_text` (langchain `RecursiveCharacterTextSplitter`), taken as
a parameter of the embedding. -/
structure TextSplitter where
  chunk_size : Nat
  chunk_overlap : Nat
  split : String → List String

/-- Constructor check performed by the text-splitter dependency (langchain
`TextSplitter.__init__`): it raises `ValueError` when the chunk overlap is
strictly larger than the chunk size, and accepts the pair otherwise. -/
def mkTextSplitter (chunk_size chunk_overlap : Nat)
    (split : String → List String) : Except String TextSplitter :=
  if chunk_size < chunk_overlap then
    .error "Got a larger chunk overlap than chunk size, should be smaller."
  else
    .ok { chunk_size := chunk_size, chunk_overlap := chunk_overlap, split := split }

/-- The `documents` section of the configuration, as read by the
constructor of `DocumentProcessor`. -/
structure DocConfig where
  chunk_size : Nat
  chunk_overlap : Nat
  max_file_size_mb : Nat
  supported_types : List String
  max_tokens : Nat
deriving Repr

/-- State of a `DocumentProcessor`.  `tokenizer` models the optional
tiktoken encoder of `estimate_tokens` (`none` when the import fails);
`md5hex` models `hashlib.md5(...).hexdigest()`. -/
structure DocumentProcessor where
  chunk_size : Nat
  chunk_overlap : Nat
  max_file_size : Nat
  supported_types : List String
  max_tokens : Nat
  text_splitter : TextSplitter
  tokenizer : Option (String → Nat)
  md5hex : List Nat → String

/-- `DocumentProcessor.__init__`: read the configuration (converting the
file-size limit from MB to bytes) and build the text splitter, whose
constructor may reject the overlap. -/
def DocumentProcessor.init (cfg : DocConfig) (split : String → List String)
    (tokenizer : Option (String → Nat)) (md5hex : List Nat → String) :
    Except String DocumentProcessor :=
  match mkTextSplitter cfg.chunk_size cfg.chunk_overlap split with
  | .error e => .error e
  | .ok ts =>
    .ok { chunk_size := cfg.chunk_size
          chunk_overlap := cfg.chunk_overlap
          max_file_size := cfg.max_file_size_mb * 1024 * 1024
          supported_types := cfg.supported_types
          max_tokens := cfg.max_tokens
          text_splitter := ts
          tokenizer := tokenizer
          md5hex := md5hex }

/-- An uploaded file-like object: name, byte content, and the outcome of
running the format-specific text extraction on it (the PDF page loop or the
Word paragraph loop, which are library calls on the file's bytes). -/
structure UploadFile where
  name : String
  content : List Nat
  extract_pdf : Except String String
  extract_docx : Except String String

/-- Python `file.size` for the uploaded file. -/
def UploadFile.size (f : UploadFile) : Nat :=
  f.content.length

/-- `DocumentProcessor.validate_file`: reject oversized files and
unsupported extensions. -/
def DocumentProcessor.validate_file (p : DocumentProcessor) (f : UploadFile) :
    Except String Unit :=
  if p.max_file_size < f.size then
    .error "File size exceeds limit"
  else if fileExt f.name ∈ p.supported_types then
    .ok ()
  else
    .error ("Unsupported file type: " ++ fileExt f.name)

/-- `DocumentProcessor._extract_pdf_text`: wrap any extraction failure in a
`ValueError` with a PDF-specific message. -/
def DocumentProcessor.extract_pdf_text (f : UploadFile) : Except String String :=
  match f.extract_pdf with
  | .ok t => .ok t
  | .error e => .error ("Error processing PDF: " ++ e)

/-- `DocumentProcessor._extract_docx_text`: wrap any extraction failure in a
`ValueError` with a Word-specific message. -/
def DocumentProcessor.extract_docx_text (f : UploadFile) : Except String String :=
  match f.extract_docx with
  | .ok t => .ok t
  | .error e => .error ("Error processing Word document: " ++ e)

/-- The per-file metadata dict built by `process_document`. -/
structure DocMetadata where
  source : String
  file_hash : String
  type : String
  processed_at : String
  size : Nat
  chunks : Nat
deriving DecidableEq, Repr

/-- The metadata dict attached to one chunk: the file metadata spread
together with the chunk index and total chunk count. -/
structure ChunkMeta where
  base : DocMetadata
  chunk : Nat
  total_chunks : Nat
deriving DecidableEq, Repr

/-- A langchain `Document`: page content plus metadata. -/
structure LDoc where
  page_content : String
  metadata : ChunkMeta
deriving DecidableEq, Repr

/-- `DocumentProcessor.process_document`: validate, hash, extract the text
for the file's extension, split it, and emit one document per chunk. -/
def DocumentProcessor.process_document (p : DocumentProcessor) (now : String)
    (f : UploadFile) : Except String (List LDoc × DocMetadata) :=
  match p.validate_file f with
  | .error e => .error e
  | .ok _ =>
    let file_hash := p.md5hex f.content
    let ext := fileExt f.name
    let textE :=
      if ext = "pdf" then DocumentProcessor.extract_pdf_text f
      else if ext = "docx" ∨ ext = "doc" then DocumentProcessor.extract_docx_text f
      else .error ("Unsupported file type: " ++ ext)
    match textE with
    | .error e => .error e
    | .ok text =>
      let chunks := p.text_splitter.split text
      let metadata : DocMetadata :=
        { source := f.name, file_hash := file_hash, type := ext
          processed_at := now, size := f.content.length, chunks := chunks.length }
      let documents := chunks.enum.map (fun ic =>
        { page_content := ic.2
          metadata := { base := metadata, chunk := ic.1, total_chunks := chunks.length } })
      .ok (documents, metadata)

/-- The batch loop of `process_documents`: each file is processed inside a
try/except whose handler re-raises a `ValueError` naming the file, so the
first failure aborts the whole loop. -/
def processDocumentsLoop (p : DocumentProcessor) (now : String) :
    List UploadFile → Except String (List LDoc × List DocMetadata)
  | [] => .ok ([], [])
  | f :: fs =>
    match p.process_document now f with
    | .error e => .error ("Error processing " ++ f.name ++ ": " ++ e)
    | .ok (docs, md) =>
      match processDocumentsLoop p now fs with
      | .error e => .error e
      | .ok (ds, ms) => .ok (docs ++ ds, md :: ms)

/-- `DocumentProcessor.process_documents`: reject an empty batch, then run
the batch loop. -/
def DocumentProcessor.process_documents (p : DocumentProcessor) (now : String)
    (files : List UploadFile) : Except String (List LDoc × List DocMetadata) :=
  if files.isEmpty then .error "No documents provided"
  else processDocumentsLoop p now files

/-- `DocumentProcessor.estimate_tokens`: the library tokenizer when it
loads, else the `len(text) // 4` fallback. -/
def DocumentProcessor.estimate_tokens (p : DocumentProcessor) (text : String) : Nat :=
  match p.tokenizer with
  | some enc => enc text
  | none => text.length / 4

/-- `DocumentProcessor.validate_token_limits`: keep documents within the
token ceiling; re-split an oversized document once and keep only the
sub-chunks that now fit, dropping the rest.  (The surrounding try/except of
the source only guards the library splitter call, which the embedding takes
as a total function.) -/
def DocumentProcessor.validate_token_limits (p : DocumentProcessor)
    (documents : List LDoc) : List LDoc :=
  documents.flatMap (fun doc =>
    if p.estimate_tokens doc.page_content ≤ p.max_tokens then [doc]
    else
      (p.text_splitter.split doc.page_content).filterMap (fun chunk =>
        if p.estimate_tokens chunk ≤ p.max_tokens then
          some { page_content := chunk, metadata := doc.metadata }
        else none))

/-! ## Embedding of src/vector_store.py (`VectorStoreManager`)

The FAISS backend is modelled from its documented query behaviour: a store
holds documents and a query-dependent distance; `similarity_search` returns
the (at most) k nearest documents and `similarity_search_with_score` also
returns their distances. -/

/-- A vector store: its documents and the embedding distance of a document
from a query string. -/
structure Store where
  docs : List LDoc
  dist : String → LDoc → ℚ

/-- Insert a scored document into a list sorted by ascending distance. -/
def insertByScore (x : LDoc × ℚ) : List (LDoc × ℚ) → List (LDoc × ℚ)
  | [] => [x]
  | y :: ys => if x.2 ≤ y.2 then x :: y :: ys else y :: insertByScore x ys

/-- Sort scored documents by ascending distance (insertion sort). -/
def sortByScore : List (LDoc × ℚ) → List (LDoc × ℚ)
  | [] => []
  | x :: xs => insertByScore x (sortByScore xs)

/-- Backend `similarity_search_with_score(query, k)`: the k nearest
documents with their distances. -/
def Store.search_with_score (s : Store) (q : String) (k : Nat) : List (LDoc × ℚ) :=
  (sortByScore (s.docs.map (fun d => (d, s.dist q d)))).take k

/-- Backend `similarity_search(query, k)`: the k nearest documents. -/
def Store.search (s : Store) (q : String) (k : Nat) : List LDoc :=
  (s.search_with_score q k).map Prod.fst

/-- Backend `similarity_search(query, k, filter=...)`: the k nearest among
the documents matching the metadata filter. -/
def Store.search_filtered (s : Store) (q : String) (k : Nat)
    (flt : ChunkMeta → Bool) : List LDoc :=
  ((sortByScore ((s.docs.filter (fun d => flt d.metadata)).map
      (fun d => (d, s.dist q d)))).take k).map Prod.fst

/-- The configuration fields of `VectorStoreManager` that its query and
load paths read. -/
structure VSMgr where
  vector_store_type : String
  similarity_threshold : ℚ
deriving Repr

/-- The on-disk environment seen by `load_vector_store`: whether the index
path exists, and what the backend load calls would do there (return a store
or raise). -/
structure VSEnv where
  path_exists : Bool
  load_faiss : Except String Store
  load_chroma : Except String Store

/-- The body of the try block of `load_vector_store`: return the sentinel
for a missing path, otherwise run the backend load for the configured type,
propagating whatever it raises. -/
def loadVectorStoreBody (m : VSMgr) (env : VSEnv) : Except String (Option Store) :=
  if env.path_exists = false then .ok none
  else
    match (if m.vector_store_type = "faiss" then env.load_faiss else env.load_chroma) with
    | .ok s => .ok (some s)
    | .error e => .error e

/-- `VectorStoreManager.load_vector_store`: the try body with its blanket
`except Exception` handler, which logs and returns `None`. -/
def VectorStoreManager.load_vector_store (m : VSMgr) (env : VSEnv) : Option Store :=
  match loadVectorStoreBody m env with
  | .ok r => r
  | .error _ => none

/-- `VectorStoreManager.similarity_search`: query the backend (honouring a
metadata filter when given); when a positive similarity threshold is
configured and the backend is FAISS, run a second scored query and keep
only the documents whose similarity `1 - distance` reaches the threshold. -/
def VectorStoreManager.similarity_search (m : VSMgr) (store : Store) (q : String)
    (k : Nat) (filter_dict : Option (ChunkMeta → Bool)) : List LDoc :=
  let results :=
    match filter_dict with
    | some flt => store.search_filtered q k flt
    | none => store.search q k
  if 0 < m.similarity_threshold then
    if m.vector_store_type = "faiss" then
      ((store.search_with_score q k).filter
        (fun ds => m.similarity_threshold ≤ 1 - ds.2)).map Prod.fst
    else results
  else results

/-! ## Embedding of src/ai_service.py (`AIServiceManager`)

The mutable per-provider cache (`self.services[name]["model"]`) becomes an
association list carried through every call; mutating the cached Python
client object becomes writing the updated client back into that list. -/

/-- A `ChatOpenAI` client instance as configured by `_get_model`. -/
structure ChatModel where
  temperature : ℚ
  max_retries : Nat
  timeout : Nat
  max_tokens : Nat
  model : String
  api_key : Option String
  base_url : Option String
deriving DecidableEq, Repr

/-- One provider entry of the configuration (`ai_services.<name>`). -/
structure ServiceConfig where
  enabled : Bool
  temperature : Option ℚ
  max_retries : Option Nat
  timeout : Option Nat
  max_tokens : Option Nat
  model : Option String
  api_key : Option String
  base_url : Option String
deriving DecidableEq, Repr

/-- One entry of `self.services`: the provider configuration and the lazily
constructed client (`None` until first use). -/
structure ServiceEntry where
  config : ServiceConfig
  model : Option ChatModel
deriving DecidableEq, Repr

/-- State of an `AIServiceManager`: the `services` dict. -/
structure AIState where
  services : List (String × ServiceEntry)
deriving DecidableEq, Repr

/-- `AIServiceManager._initialize_services`: keep the enabled providers,
each with an empty client slot. -/
def AIState.init (cfgs : List (String × ServiceConfig)) : AIState :=
  { services := (cfgs.filter (fun nc => nc.2.enabled)).map (fun nc => (nc.1, { config := nc.2, model := none })) }

/-- Python `a or b` on an optional string: an empty string is falsy, so it
also falls through to `b`. -/
def pyOrStr (a b : Option String) : Option String :=
  match a with
  | some s => if s = "" then b else some s
  | none => b

/-- Construction of the `ChatOpenAI` client by `_get_model`: common
keyword defaults, then provider-specific model name, base URL and API-key
fallback to the environment. -/
def buildModel (env : String → Option String) (service_name : String)
    (c : ServiceConfig) : ChatModel :=
  let base : ChatModel :=
    { temperature := c.temperature.getD (7 / 10)
      max_retries := (c.max_retries).getD 3
      timeout := (c.timeout).getD 30
      max_tokens := (c.max_tokens).getD 4000
      model := "gpt-3.5-turbo"
      api_key := none
      base_url := none }
  if service_name = "openai" then
    { base with model := c.model.getD "gpt-3.5-turbo"
                api_key := pyOrStr c.api_key (env "OPENAI_API_KEY") }
  else if service_name = "deepseek" then
    { base with model := c.model.getD "deepseek-chat"
                base_url := some (c.base_url.getD "https://api.deepseek.com/v1")
                api_key := pyOrStr c.api_key (env "DEEPSEEK_API_KEY") }
  else if service_name = "kimi" then
    { base with model := c.model.getD "moonshot-v1-8k"
                base_url := some (c.base_url.getD "https://api.moonshot.cn/v1")
                api_key := pyOrStr c.api_key (env "KIMI_API_KEY") }
  else base

/-- Write the cached client of the named provider into the services list. -/
def setServices (name : String) (m : ChatModel) :
    List (String × ServiceEntry) → List (String × ServiceEntry)
  | [] => []
  | (k, e) :: rest =>
    if k = name then (k, { e with model := some m }) :: setServices name m rest
    else (k, e) :: setServices name m rest

/-- Write the cached client of one provider (mutation of the object stored
in the `services` dict). -/
def AIState.setCachedModel (st : AIState) (name : String) (m : ChatModel) : AIState :=
  { services := setServices name m st.services }

/-- `AIServiceManager._get_model`: raise for an unknown provider, reuse the
cached client when present, else construct it and cache it. -/
def AIServiceManager.get_model (env : String → Option String) (st : AIState)
    (name : String) : Except String (ChatModel × AIState) :=
  match st.services.lookup name with
  | none => .error ("Service " ++ name ++ " is not enabled")
  | some entry =>
    match entry.model with
    | some m => .ok (m, st)
    | none =>
      let m := buildModel env name entry.config
      .ok (m, st.setCachedModel name m)

/-- `AIServiceManager.get_completion`: fetch (or build) the provider's
client, then assign the overrides onto that client object — in Python the
local variable and the cache alias the same object, so the write lands in
the cache.  The returned pair is the client the request is issued with and
the state after the call (the response text itself is a network effect the
embedding does not model). -/
def AIServiceManager.get_completion (env : String → Option String) (st : AIState)
    (name : String) (temperature : Option ℚ) (max_tokens : Option Nat) :
    Except String (ChatModel × AIState) :=
  match AIServiceManager.get_model env st name with
  | .error e => .error e
  | .ok (m, st1) =>
    let m1 := match temperature with
      | some t => { m with temperature := t }
      | none => m
    let m2 := match max_tokens with
      | some mt => { m1 with max_tokens := mt }
      | none => m1
    .ok (m2, st1.setCachedModel name m2)

/-! ## Concrete sample data used to evaluate the definitions -/

/-- Whether an `Except` computation succeeded. -/
def exceptIsOk : Except ε α → Bool
  | .ok _ => true
  | .error _ => false

/-- A manager configured for the FAISS backend with the default 0.7
similarity threshold. -/
def faissMgr : VSMgr :=
  { vector_store_type := "faiss", similarity_threshold := 7 / 10 }

/-- Chunk metadata of a one-chunk sample document. -/
def sampleMeta : ChunkMeta :=
  { base := { source := "a.pdf", file_hash := "h", type := "pdf"
              processed_at := "t", size := 5, chunks := 1 }
    chunk := 0, total_chunks := 1 }

/-- A document close to the sample query. -/
def docNear : LDoc :=
  { page_content := "alpha", metadata := sampleMeta }

/-- A document far from the sample query. -/
def docFar : LDoc :=
  { page_content := "omega", metadata := sampleMeta }

/-- A two-document store whose distance function puts `docNear` at
distance 0.1 and everything else at distance 0.9. -/
def sampleStore : Store :=
  { docs := [docNear, docFar]
    dist := fun _ d => if d.page_content = "alpha" then 1 / 10 else 9 / 10 }

/-- A sample splitter: cut a string after its first four characters. -/
def sampleSplit : String → List String :=
  fun s => [s.take 4, s.drop 4]

/-- A sample content hash. -/
def sampleMd5 : List Nat → String :=
  fun _ => "h"

/-- A concrete document processor (tokenizer import failed, so token counts
use the `len // 4` fallback; the token ceiling is 2). -/
def sampleProcessor : DocumentProcessor :=
  { chunk_size := 1000
    chunk_overlap := 200
    max_file_size := 10 * 1024 * 1024
    supported_types := ["pdf", "docx", "doc"]
    max_tokens := 2
    text_splitter := { chunk_size := 1000, chunk_overlap := 200, split := sampleSplit }
    tokenizer := none
    md5hex := sampleMd5 }

/-- A well-formed PDF upload. -/
def goodFile : UploadFile :=
  { name := "good.pdf", content := [1]
    extract_pdf := .ok "hello", extract_docx := .ok "" }

/-- A PDF upload whose text extraction fails. -/
def badFile : UploadFile :=
  { name := "bad.pdf", content := [2]
    extract_pdf := .error "boom", extract_docx := .ok "" }

/-- A small document that already fits the token ceiling of
`sampleProcessor`. -/
def docSmall : LDoc :=
  { page_content := "abcd", metadata := sampleMeta }

/-- A documents configuration whose overlap equals its chunk size. -/
def cfgOverlapEq : DocConfig :=
  { chunk_size := 100, chunk_overlap := 100, max_file_size_mb := 10
    supported_types := ["pdf"], max_tokens := 1000 }

/-- An environment with no API keys set. -/
def aiEnv0 : String → Option String :=
  fun _ => none

/-- A minimal enabled provider configuration. -/
def openaiCfg : ServiceConfig :=
  { enabled := true, temperature := none, max_retries := none, timeout := none
    max_tokens := none, model := none, api_key := none, base_url := none }

/-- The manager state right after `_initialize_services` with only the
`openai` provider enabled. -/
def aiState0 : AIState :=
  AIState.init [("openai", openaiCfg)]

/-- The client that `get_completion` builds for `aiState0` under a 0.5
temperature override and a 1234 max-tokens override. -/
def completionModel : ChatModel :=
  { temperature := 1 / 2, max_retries := 3, timeout := 30, max_tokens := 1234
    model := "gpt-3.5-turbo", api_key := none, base_url := none }

/-- The manager state after that call: the override is cached. -/
def completionState : AIState :=
  { services := [("openai", { config := openaiCfg, model := some completionModel })] }

/-- A conversation manager configured to keep one message pair. -/
def sampleConv : ConvState :=
  ConvState.init 1 4000 true "t0"

/-- Sample messages. -/
def msgQ1 : Message := { type := "human", content := "q1" }

/-- Sample messages. -/
def msgA1 : Message := { type := "ai", content := "a1" }

/-- Sample messages. -/
def msgQ2 : Message := { type := "human", content := "q2" }

/-! ## Lemmas about the conversation manager -/

theorem add_message_max_history (st : ConvState) (m : Message) (ds : List SourceDoc) :
    (ConversationManager.add_message st m ds).max_history = st.max_history := rfl

theorem add_message_history_eq (st : ConvState) (m : Message) (ds : List SourceDoc) :
    (ConversationManager.add_message st m ds).history =
      (if st.max_history * 2 < (st.history ++ [m]).length
       then pySliceLast (st.history ++ [m]) (st.max_history * 2)
       else st.history ++ [m]) := rfl

theorem add_message_total (st : ConvState) (m : Message) (ds : List SourceDoc) :
    (ConversationManager.add_message st m ds).metadata.total_messages
      = st.metadata.total_messages + 1 := by
  unfold ConversationManager.add_message
  dsimp only
  split <;> rfl

theorem takeLast_length (l : List α) (n : Nat) :
    (takeLast l n).length = l.length - (l.length - n) := by
  simp [takeLast]

theorem takeLast_of_le (l : List α) (n : Nat) (h : l.length ≤ n) :
    takeLast l n = l := by
  simp [takeLast, Nat.sub_eq_zero_of_le h]

theorem add_message_takeLast (st : ConvState) (m : Message) (acc : List Message)
    (hpos : 1 ≤ st.max_history)
    (hh : st.history = takeLast acc (st.max_history * 2)) :
    (ConversationManager.add_message st m []).history
      = takeLast (acc ++ [m]) (st.max_history * 2) := by
  have hmh := add_message_history_eq st m []
  set n := st.max_history * 2 with hn
  have hn2 : 2 ≤ n := by omega
  rw [hmh, hh]
  by_cases hlen : acc.length < n
  · have e1 : takeLast acc n = acc := takeLast_of_le acc n (by omega)
    rw [e1]
    rw [if_neg (by simp [List.length_append]; omega)]
    rw [takeLast_of_le (acc ++ [m]) n (by simp [List.length_append]; omega)]
  · have e1 : (takeLast acc n).length = n := by rw [takeLast_length]; omega
    rw [if_pos (by simp [List.length_append, e1])]
    unfold pySliceLast
    rw [if_neg (by omega : ¬ n = 0)]
    have hlen2 : (takeLast acc n ++ [m]).length - n = 1 := by
      simp [List.length_append, e1]
    rw [hlen2, List.drop_append_of_le_length (by omega : 1 ≤ (takeLast acc n).length)]
    unfold takeLast
    rw [List.drop_drop]
    simp only [List.length_append, List.length_singleton]
    rw [List.drop_append_of_le_length (by omega : acc.length + 1 - n ≤ acc.length)]
    congr 2
    omega

theorem runAdds_cons (st : ConvState) (m : Message) (ms : List Message) :
    runAdds st (m :: ms) = runAdds (ConversationManager.add_message st m []) ms := rfl

theorem runAdds_takeLast (ms : List Message) :
    ∀ (st : ConvState) (acc : List Message), 1 ≤ st.max_history →
      st.history = takeLast acc (st.max_history * 2) →
      (runAdds st ms).history = takeLast (acc ++ ms) (st.max_history * 2) ∧
      (runAdds st ms).max_history = st.max_history := by
  induction ms with
  | nil =>
    intro st acc h1 h2
    simpa [runAdds] using h2
  | cons m rest ih =>
    intro st acc h1 h2
    rw [runAdds_cons]
    have hmax := add_message_max_history st m []
    have step := add_message_takeLast st m acc h1 h2
    have := ih (ConversationManager.add_message st m []) (acc ++ [m])
      (by rw [hmax]; exact h1) (by rw [hmax]; exact step)
    rw [hmax] at this
    simpa [List.append_assoc] using this

theorem runAdds_total (ms : List Message) :
    ∀ st : ConvState, (runAdds st ms).metadata.total_messages
      = st.metadata.total_messages + ms.length := by
  induction ms with
  | nil => intro st; simp [runAdds]
  | cons m rest ih =>
    intro st
    rw [runAdds_cons, ih, add_message_total]
    simp [List.length_cons]
    omega

/-- C1 (amended): on a manager whose `max_history = h + 1` is positive,
after any sequence of `add_message` calls the history is exactly the most
recent `max_history * 2` of the appended messages, in order, and its length
never exceeds `max_history * 2` — so appending more than `max_history`
pairs retains exactly the `max_history` most recent pairs. -/
theorem C1_history_cap (h cw : Nat) (inc : Bool) (now : String) (ms : List Message) :
    (runAdds (ConvState.init (h + 1) cw inc now) ms).history = takeLast ms ((h + 1) * 2) ∧
    (runAdds (ConvState.init (h + 1) cw inc now) ms).history.length ≤ (h + 1) * 2 := by
  have base : (ConvState.init (h + 1) cw inc now).history
      = takeLast ([] : List Message) ((ConvState.init (h + 1) cw inc now).max_history * 2) := by
    simp [ConvState.init, takeLast]
  have main := (runAdds_takeLast ms (ConvState.init (h + 1) cw inc now) []
      (by show 1 ≤ h + 1; omega) base).1
  simp only [List.nil_append] at main
  have hmax : (ConvState.init (h + 1) cw inc now).max_history = h + 1 := rfl
  rw [hmax] at main
  refine ⟨main, ?_⟩
  rw [main, takeLast_length]
  omega

/-- C1 counterexample: with `max_history = 0` the trimming slice
`history[-0:]` is the whole list, so appending one pair (N = 1 exceeds
max_history = 0) leaves one pair in history instead of zero — the history
cap of the claim fails for that configuration. -/
theorem C1_counterexample :
    ¬ ((runAdds (ConvState.init 0 4000 true "t0") [msgQ1, msgA1]).history.length ≤ 0 * 2) := by
  decide

/-- C10 (amended): `add_message` always increments `total_messages` by
exactly one, and on a manager with positive `max_history`, once the
messages appended since the last `clear_history` number more than
`max_history * 2`, the counter equals the number appended and strictly
exceeds the retained history length. -/
theorem C10_total_messages (st : ConvState) (now : String) (m : Message)
    (ds : List SourceDoc) (ms : List Message)
    (h1 : 1 ≤ st.max_history) (h2 : st.max_history * 2 < ms.length) :
    (ConversationManager.add_message st m ds).metadata.total_messages
      = st.metadata.total_messages + 1 ∧
    (runAdds (ConversationManager.clear_history st now) ms).metadata.total_messages
      = ms.length ∧
    (runAdds (ConversationManager.clear_history st now) ms).history.length
      < (runAdds (ConversationManager.clear_history st now) ms).metadata.total_messages := by
  have hclr : (ConversationManager.clear_history st now).max_history = st.max_history := rfl
  have base : (ConversationManager.clear_history st now).history
      = takeLast ([] : List Message)
          ((ConversationManager.clear_history st now).max_history * 2) := by
    simp [ConversationManager.clear_history, takeLast]
  have main := (runAdds_takeLast ms (ConversationManager.clear_history st now) []
      (by rw [hclr]; exact h1) base).1
  simp only [List.nil_append] at main
  rw [hclr] at main
  have hT := runAdds_total ms (ConversationManager.clear_history st now)
  have hT0 : (ConversationManager.clear_history st now).metadata.total_messages = 0 := rfl
  refine ⟨add_message_total st m ds, by rw [hT, hT0]; omega, ?_⟩
  rw [main, takeLast_length, hT, hT0]
  omega

/-- C10 witness: the amended statement evaluated on a manager with
`max_history = 1` and three appended messages. -/
theorem C10_witness :
    (ConversationManager.add_message sampleConv msgQ1 []).metadata.total_messages
      = sampleConv.metadata.total_messages + 1 ∧
    (runAdds (ConversationManager.clear_history sampleConv "t1")
        [msgQ1, msgA1, msgQ2]).metadata.total_messages
      = ([msgQ1, msgA1, msgQ2] : List Message).length ∧
    (runAdds (ConversationManager.clear_history sampleConv "t1")
        [msgQ1, msgA1, msgQ2]).history.length
      < (runAdds (ConversationManager.clear_history sampleConv "t1")
        [msgQ1, msgA1, msgQ2]).metadata.total_messages :=
  C10_total_messages sampleConv "t1" msgQ1 [] [msgQ1, msgA1, msgQ2] (by decide) (by decide)

/-- C10 counterexample: with `max_history = 0` nothing is ever evicted, so
after one appended pair (more than 0 pairs) the counter equals the history
length instead of exceeding it. -/
theorem C10_counterexample :
    (runAdds (ConversationManager.clear_history (ConvState.init 0 4000 true "t0") "t1")
        [msgQ2, msgA1]).metadata.total_messages = 2 ∧
    (runAdds (ConversationManager.clear_history (ConvState.init 0 4000 true "t0") "t1")
        [msgQ2, msgA1]).history.length = 2 ∧
    ¬ ((runAdds (ConversationManager.clear_history (ConvState.init 0 4000 true "t0") "t1")
        [msgQ2, msgA1]).history.length
      < (runAdds (ConversationManager.clear_history (ConvState.init 0 4000 true "t0") "t1")
        [msgQ2, msgA1]).metadata.total_messages) := by
  decide

/-! ## Lemmas about the JSON export -/

theorem mapM_asStr_map (l : List String) :
    optionMapM JVal.asStr (l.map JVal.jstr) = some l := by
  induction l with
  | nil => rfl
  | cons a rest ih => simp [optionMapM, ih, JVal.asStr]

theorem parse_msg_obj (m : Message) (now : String) :
    parseExportMessage (JVal.jobj
        [ ("type", JVal.jstr m.type)
        , ("content", JVal.jstr m.content)
        , ("timestamp", JVal.jstr now) ])
      = some { type := m.type, content := m.content, timestamp := now } := rfl

theorem mapM_parseMessage_map (hist : List Message) (now : String) :
    optionMapM parseExportMessage (hist.map (fun m => JVal.jobj
        [ ("type", JVal.jstr m.type)
        , ("content", JVal.jstr m.content)
        , ("timestamp", JVal.jstr now) ]))
      = some (hist.map (fun m =>
          ({ type := m.type, content := m.content, timestamp := now } : ExportMessage))) := by
  induction hist with
  | nil => rfl
  | cons m rest ih => simp [optionMapM, parse_msg_obj, ih]

/-- C7: re-parsing the JSON export recovers the conversation exactly — the
parsed messages carry the same ordered types and contents as the current
history, and the parsed document-source list equals the tracked source
set. -/
theorem C7_export_roundtrip (st : ConvState) (now : String) :
    parseExport (ConversationManager.export_to_json st now)
      = some { created_at := st.metadata.created_at
               total_messages := (st.metadata.total_messages : Int)
               document_sources := st.metadata.document_sources
               messages := st.history.map (fun m =>
                 { type := m.type, content := m.content, timestamp := now }) } ∧
    ((st.history.map (fun m =>
        ({ type := m.type, content := m.content, timestamp := now } : ExportMessage))).map
      (fun em => (em.type, em.content)))
      = st.history.map (fun m => (m.type, m.content)) := by
  constructor
  · unfold parseExport ConversationManager.export_to_json
    simp [JVal.lookupKey, List.lookup, JVal.asStr, JVal.asNum, JVal.asArr,
          mapM_asStr_map, mapM_parseMessage_map]
  · simp [List.map_map]

/-! ## Lemmas about the configuration lookup -/

theorem resolvePath_eq_getPath (ks : List String) :
    ∀ c : CVal, resolvePath ks c
      = (match getPath ks c with
         | .ok v => some v
         | .error _ => none) := by
  induction ks with
  | nil => intro c; rfl
  | cons k rest ih =>
    intro c
    cases c with
    | vdict es =>
      simp only [resolvePath, getPath, indexStep]
      cases es.lookup k with
      | none => rfl
      | some v => exact ih v
    | vstr s => rfl
    | vint n => rfl
    | vbool b => rfl
    | vnull => rfl
    | vlist xs => rfl

/-- C9: `ConfigManager.get` is total — it equals the pure resolver that
walks the dotted path through nested mappings, falling back to the default
the moment a segment is missing or an intermediate value is not a mapping,
and never propagates the caught `KeyError`/`TypeError`. -/
theorem C9_config_get_total (cfg : CVal) (key : String) (default : CVal) :
    ConfigManager.get cfg key default
      = (resolvePath (key.splitOn ".") cfg).getD default := by
  unfold ConfigManager.get
  rw [resolvePath_eq_getPath]
  cases getPath (key.splitOn ".") cfg <;> rfl

/-! ## Lemmas about the vector store -/

/-- C2 (amended): `load_vector_store` returns the sentinel `none` when no
index exists at the configured path, returns the loaded store when the
backend load succeeds, and also returns `none` — swallowing the error
rather than propagating it — when the backend load raises. -/
theorem C2_load_never_raises (m : VSMgr) (lf lc : Except String Store)
    (e : String) (s : Store) :
    VectorStoreManager.load_vector_store m
        { path_exists := false, load_faiss := lf, load_chroma := lc } = none ∧
    VectorStoreManager.load_vector_store m
        { path_exists := true, load_faiss := .error e, load_chroma := .error e } = none ∧
    VectorStoreManager.load_vector_store m
        { path_exists := true, load_faiss := .ok s, load_chroma := .ok s } = some s := by
  refine ⟨rfl, ?_, ?_⟩ <;>
    by_cases h : m.vector_store_type = "faiss" <;>
      simp [VectorStoreManager.load_vector_store, loadVectorStoreBody, h]

/-- C2 counterexample: on a FAISS manager whose index path exists but whose
backend load raises ("corrupt index"), the try body raises, yet
`load_vector_store` returns the "not found" sentinel instead of
propagating the error — refuting the propagation half of the claim. -/
theorem C2_counterexample :
    loadVectorStoreBody faissMgr
        { path_exists := true, load_faiss := .error "corrupt index"
          load_chroma := .error "corrupt index" }
      = .error "corrupt index" ∧
    VectorStoreManager.load_vector_store faissMgr
        { path_exists := true, load_faiss := .error "corrupt index"
          load_chroma := .error "corrupt index" }
      = none := by
  exact ⟨rfl, rfl⟩

theorem length_sws_le (s : Store) (q : String) (k : Nat) :
    (s.search_with_score q k).length ≤ k := by
  unfold Store.search_with_score
  rw [List.length_take]
  exact Nat.min_le_left _ _

theorem length_search_le (s : Store) (q : String) (k : Nat) :
    (s.search q k).length ≤ k := by
  unfold Store.search
  rw [List.length_map]
  exact length_sws_le s q k

theorem length_search_filtered_le (s : Store) (q : String) (k : Nat)
    (flt : ChunkMeta → Bool) :
    (s.search_filtered q k flt).length ≤ k := by
  unfold Store.search_filtered
  rw [List.length_map, List.length_take]
  exact Nat.min_le_left _ _

theorem similarity_search_faiss_branch (m : VSMgr) (store : Store) (q : String)
    (k : Nat) (fd : Option (ChunkMeta → Bool))
    (h1 : 0 < m.similarity_threshold) (h2 : m.vector_store_type = "faiss") :
    VectorStoreManager.similarity_search m store q k fd
      = ((store.search_with_score q k).filter
          (fun ds => m.similarity_threshold ≤ 1 - ds.2)).map Prod.fst := by
  simp [VectorStoreManager.similarity_search, h1, h2]

theorem similarity_search_plain_branch (m : VSMgr) (store : Store) (q : String)
    (k : Nat) (fd : Option (ChunkMeta → Bool))
    (h : ¬ 0 < m.similarity_threshold ∨ ¬ m.vector_store_type = "faiss") :
    VectorStoreManager.similarity_search m store q k fd
      = (match fd with
         | some flt => store.search_filtered q k flt
         | none => store.search q k) := by
  rcases h with h | h <;> simp [VectorStoreManager.similarity_search, h]

/-- C3: `similarity_search` returns at most k documents; moreover, when a
positive similarity threshold is configured and the backend is FAISS, the
result is exactly the second scored query filtered to the documents whose
similarity `1 - distance` reaches the threshold, so every returned document
scores at least the threshold and sub-threshold documents are dropped. -/
theorem C3_search_threshold (m : VSMgr) (store : Store) (q : String) (k : Nat)
    (fd : Option (ChunkMeta → Bool)) :
    (VectorStoreManager.similarity_search m store q k fd).length ≤ k ∧
    (0 < m.similarity_threshold → m.vector_store_type = "faiss" →
      VectorStoreManager.similarity_search m store q k fd
        = ((store.search_with_score q k).filter
            (fun ds => m.similarity_threshold ≤ 1 - ds.2)).map Prod.fst ∧
      ∀ d ∈ VectorStoreManager.similarity_search m store q k fd,
        ∃ sc, (d, sc) ∈ store.search_with_score q k ∧
          m.similarity_threshold ≤ 1 - sc) := by
  constructor
  · by_cases h1 : 0 < m.similarity_threshold
    · by_cases h2 : m.vector_store_type = "faiss"
      · rw [similarity_search_faiss_branch m store q k fd h1 h2, List.length_map]
        exact le_trans (List.length_filter_le _ _) (length_sws_le store q k)
      · rw [similarity_search_plain_branch m store q k fd (Or.inr h2)]
        cases fd with
        | some flt => exact length_search_filtered_le store q k flt
        | none => exact length_search_le store q k
    · rw [similarity_search_plain_branch m store q k fd (Or.inl h1)]
      cases fd with
      | some flt => exact length_search_filtered_le store q k flt
      | none => exact length_search_le store q k
  · intro h1 h2
    have heq := similarity_search_faiss_branch m store q k fd h1 h2
    refine ⟨heq, ?_⟩
    intro d hd
    rw [heq] at hd
    obtain ⟨⟨d', sc⟩, hmem, hfst⟩ := List.mem_map.mp hd
    rw [List.mem_filter] at hmem
    subst hfst
    exact ⟨sc, hmem.1, by simpa using hmem.2⟩

/-- C3 witness: the theorem evaluated on the FAISS sample manager (0.7
threshold), the two-document sample store, query "q" and k = 1. -/
theorem C3_witness :
    (VectorStoreManager.similarity_search faissMgr sampleStore "q" 1 none).length ≤ 1 ∧
    VectorStoreManager.similarity_search faissMgr sampleStore "q" 1 none
      = ((sampleStore.search_with_score "q" 1).filter
          (fun ds => faissMgr.similarity_threshold ≤ 1 - ds.2)).map Prod.fst :=
  ⟨(C3_search_threshold faissMgr sampleStore "q" 1 none).1,
   ((C3_search_threshold faissMgr sampleStore "q" 1 none).2 (by norm_num [faissMgr]) rfl).1⟩

/-! ## Lemmas about the document processor -/

theorem processDocumentsLoop_error (p : DocumentProcessor) (now : String)
    (f : UploadFile) (post : List UploadFile) (e : String)
    (hf : p.process_document now f = .error e) :
    ∀ pre : List UploadFile, (∀ g ∈ pre, ∃ r, p.process_document now g = .ok r) →
      processDocumentsLoop p now (pre ++ f :: post)
        = .error ("Error processing " ++ f.name ++ ": " ++ e) := by
  intro pre
  induction pre with
  | nil =>
    intro _
    simp only [List.nil_append, processDocumentsLoop, hf]
  | cons g gs ih =>
    intro hpre
    obtain ⟨r, hr⟩ := hpre g (by simp)
    obtain ⟨ds, ms⟩ := r
    simp only [List.cons_append, processDocumentsLoop, hr]
    rw [List.append_eq, ih (fun x hx => hpre x (by simp [hx]))]

/-- C4 (amended): when text extraction fails for a file in a batch, the
whole `process_documents` call aborts with a `ValueError` naming that file;
the siblings that had already succeeded (and all later files) contribute
nothing to the result. -/
theorem C4_batch_abort (p : DocumentProcessor) (now : String)
    (pre post : List UploadFile) (f : UploadFile) (e : String)
    (hpre : ∀ g ∈ pre, ∃ r, p.process_document now g = .ok r)
    (hf : p.process_document now f = .error e) :
    p.process_documents now (pre ++ f :: post)
      = .error ("Error processing " ++ f.name ++ ": " ++ e) := by
  unfold DocumentProcessor.process_documents
  rw [if_neg (by simp)]
  exact processDocumentsLoop_error p now f post e hf pre hpre

/-- C4 witness: the amended statement on a concrete batch of one good and
one failing PDF. -/
theorem C4_witness :
    sampleProcessor.process_documents "t" ([goodFile] ++ badFile :: [])
      = .error ("Error processing " ++ badFile.name ++ ": " ++ "Error processing PDF: boom") :=
  C4_batch_abort sampleProcessor "t" [goodFile] [] badFile "Error processing PDF: boom"
    (by intro g hg; rw [List.mem_singleton] at hg; subst hg; exact ⟨_, rfl⟩) rfl

/-- C4 counterexample: with the failing PDF first and a processable PDF
second, `process_documents` returns a batch-level error; the second file's
chunks and metadata are not returned, refuting the claim that siblings
still succeed. -/
theorem C4_counterexample :
    sampleProcessor.process_documents "t" [badFile, goodFile]
      = .error "Error processing bad.pdf: Error processing PDF: boom" := rfl

/-- C6 (amended): the constructor chain rejects only a chunk overlap
strictly greater than the chunk size (the text-splitter dependency raises
`ValueError` then); an overlap equal to — or smaller than — the chunk size
is accepted and construction succeeds. -/
theorem C6_overlap_validation (cs d mfs mtk : Nat) (types : List String)
    (split : String → List String) (tok : Option (String → Nat))
    (md5 : List Nat → String) :
    DocumentProcessor.init
        { chunk_size := cs, chunk_overlap := cs + d + 1, max_file_size_mb := mfs
          supported_types := types, max_tokens := mtk } split tok md5
      = .error "Got a larger chunk overlap than chunk size, should be smaller." ∧
    exceptIsOk (DocumentProcessor.init
        { chunk_size := cs + d, chunk_overlap := cs, max_file_size_mb := mfs
          supported_types := types, max_tokens := mtk } split tok md5) = true := by
  constructor
  · unfold DocumentProcessor.init mkTextSplitter
    rw [if_pos (by omega : cs < cs + d + 1)]
  · unfold DocumentProcessor.init mkTextSplitter
    rw [if_neg (by omega : ¬ cs + d < cs)]
    rfl

/-- C6 counterexample: a configuration whose chunk overlap equals its chunk
size (100 = 100) is accepted — constructing the document processor
succeeds, refuting the claim that overlap ≥ size is rejected. -/
theorem C6_counterexample :
    exceptIsOk (DocumentProcessor.init cfgOverlapEq sampleSplit none sampleMd5) = true := rfl

/-- C8: every document returned by `validate_token_limits` has an estimated
token count within the configured ceiling, and each one is either an input
document that already fit or a piece of the one-retry re-split of an
oversized input (pieces still oversized after that retry are dropped). -/
theorem C8_token_ceiling (p : DocumentProcessor) (documents : List LDoc) (d : LDoc)
    (hd : d ∈ p.validate_token_limits documents) :
    p.estimate_tokens d.page_content ≤ p.max_tokens ∧
    ∃ src ∈ documents,
      (p.estimate_tokens src.page_content ≤ p.max_tokens ∧ d = src) ∨
      (p.max_tokens < p.estimate_tokens src.page_content ∧
        d.page_content ∈ p.text_splitter.split src.page_content ∧
        d.metadata = src.metadata) := by
  unfold DocumentProcessor.validate_token_limits at hd
  rw [List.mem_flatMap] at hd
  obtain ⟨src, hsrc, hmem⟩ := hd
  by_cases h : p.estimate_tokens src.page_content ≤ p.max_tokens
  · rw [if_pos h] at hmem
    rw [List.mem_singleton] at hmem
    subst hmem
    exact ⟨h, d, hsrc, Or.inl ⟨h, rfl⟩⟩
  · rw [if_neg h] at hmem
    rw [List.mem_filterMap] at hmem
    obtain ⟨c, hc, hcc⟩ := hmem
    by_cases h2 : p.estimate_tokens c ≤ p.max_tokens
    · rw [if_pos h2] at hcc
      rw [Option.some.injEq] at hcc
      subst hcc
      exact ⟨h2, src, hsrc, Or.inr ⟨by omega, hc, rfl⟩⟩
    · rw [if_neg h2] at hcc
      exact absurd hcc (by simp)

/-- C8 witness: the ceiling bound evaluated on the sample processor and a
document that fits its two-token ceiling. -/
theorem C8_witness :
    sampleProcessor.estimate_tokens docSmall.page_content ≤ sampleProcessor.max_tokens :=
  (C8_token_ceiling sampleProcessor [docSmall] docSmall (by decide)).1

/-! ## Lemmas about the AI service manager -/

theorem lookup_setServices (name : String) (m : ChatModel) :
    ∀ l : List (String × ServiceEntry),
      (setServices name m l).lookup name
        = (l.lookup name).map (fun e => { e with model := some m })
  | [] => rfl
  | (k, e) :: t => by
    by_cases hk : k = name
    · have hkt : (name == k) = true := by simp [hk]
      simp only [setServices, if_pos hk, List.lookup, hkt]
      rfl
    · have hkf : (name == k) = false := by simp [Ne.symm hk]
      simp only [setServices, if_neg hk, List.lookup, hkf]
      exact lookup_setServices name m t

theorem lookup_setCachedModel (st : AIState) (name : String) (m : ChatModel) :
    (st.setCachedModel name m).services.lookup name
      = (st.services.lookup name).map (fun e => { e with model := some m }) :=
  lookup_setServices name m st.services

theorem setServices_idem (name : String) (m : ChatModel) :
    ∀ l : List (String × ServiceEntry),
      setServices name m (setServices name m l) = setServices name m l
  | [] => rfl
  | (k, e) :: t => by
    by_cases hk : k = name
    · simp only [setServices, if_pos hk, setServices_idem name m t]
    · simp only [setServices, if_neg hk, setServices_idem name m t]

theorem setCachedModel_idem (st : AIState) (name : String) (m : ChatModel) :
    (st.setCachedModel name m).setCachedModel name m = st.setCachedModel name m := by
  simp only [AIState.setCachedModel, setServices_idem]

theorem get_model_after_set (env : String → Option String) (st1 : AIState)
    (name : String) (M : ChatModel) (e1 : ServiceEntry)
    (hlk : st1.services.lookup name = some e1) :
    AIServiceManager.get_model env (st1.setCachedModel name M) name
      = .ok (M, st1.setCachedModel name M) := by
  unfold AIServiceManager.get_model
  rw [lookup_setCachedModel, hlk]
  rfl

/-- C5: whatever combination of temperature and max-tokens overrides a
`get_completion` call passes — either alone, or both — each given override
is written onto the provider's cached client object: the client the request
is issued with carries every override, and because the cache still holds
that same object, every subsequent `get_completion` on the provider without
overrides reuses it unchanged.  The overrides are sticky, not scoped to the
single request. -/
theorem C5_sticky_override (env : String → Option String) (st : AIState)
    (name : String) (tmp : Option ℚ) (mtk : Option Nat) (m : ChatModel)
    (st' : AIState)
    (h : AIServiceManager.get_completion env st name tmp mtk = .ok (m, st')) :
    (∀ t, tmp = some t → m.temperature = t) ∧
    (∀ mt, mtk = some mt → m.max_tokens = mt) ∧
    AIServiceManager.get_model env st' name = .ok (m, st') ∧
    AIServiceManager.get_completion env st' name none none = .ok (m, st') := by
  unfold AIServiceManager.get_completion at h
  cases hg : AIServiceManager.get_model env st name with
  | error e =>
    rw [hg] at h
    exact absurd h (by simp)
  | ok p =>
    obtain ⟨m0, st1⟩ := p
    rw [hg] at h
    have hentry : ∃ e1 : ServiceEntry, st1.services.lookup name = some e1 := by
      unfold AIServiceManager.get_model at hg
      cases hlk : st.services.lookup name with
      | none =>
        rw [hlk] at hg
        exact absurd hg (by simp)
      | some entry =>
        rw [hlk] at hg
        dsimp only at hg
        cases hment : entry.model with
        | some mc =>
          rw [hment] at hg
          simp only [Except.ok.injEq, Prod.mk.injEq] at hg
          rw [← hg.2]
          exact ⟨entry, hlk⟩
        | none =>
          rw [hment] at hg
          simp only [Except.ok.injEq, Prod.mk.injEq] at hg
          rw [← hg.2, lookup_setCachedModel, hlk]
          exact ⟨_, rfl⟩
    obtain ⟨e1, he1⟩ := hentry
    cases tmp with
    | none =>
      cases mtk with
      | none =>
        simp only [Except.ok.injEq, Prod.mk.injEq] at h
        obtain ⟨hm, hst⟩ := h
        subst hm
        subst hst
        refine ⟨fun t ht => absurd ht (by simp), fun mt hmt => absurd hmt (by simp),
          get_model_after_set env st1 name _ e1 he1, ?_⟩
        unfold AIServiceManager.get_completion
        rw [get_model_after_set env st1 name _ e1 he1]
        simp only [setCachedModel_idem]
      | some mt =>
        simp only [Except.ok.injEq, Prod.mk.injEq] at h
        obtain ⟨hm, hst⟩ := h
        subst hm
        subst hst
        refine ⟨fun t ht => absurd ht (by simp), ?_,
          get_model_after_set env st1 name _ e1 he1, ?_⟩
        · intro mt' hmt
          cases hmt
          rfl
        · unfold AIServiceManager.get_completion
          rw [get_model_after_set env st1 name _ e1 he1]
          simp only [setCachedModel_idem]
    | some t =>
      cases mtk with
      | none =>
        simp only [Except.ok.injEq, Prod.mk.injEq] at h
        obtain ⟨hm, hst⟩ := h
        subst hm
        subst hst
        refine ⟨?_, fun mt hmt => absurd hmt (by simp),
          get_model_after_set env st1 name _ e1 he1, ?_⟩
        · intro t' ht
          cases ht
          rfl
        · unfold AIServiceManager.get_completion
          rw [get_model_after_set env st1 name _ e1 he1]
          simp only [setCachedModel_idem]
      | some mt =>
        simp only [Except.ok.injEq, Prod.mk.injEq] at h
        obtain ⟨hm, hst⟩ := h
        subst hm
        subst hst
        refine ⟨?_, ?_, get_model_after_set env st1 name _ e1 he1, ?_⟩
        · intro t' ht
          cases ht
          rfl
        · intro mt' hmt
          cases hmt
          rfl
        · unfold AIServiceManager.get_completion
          rw [get_model_after_set env st1 name _ e1 he1]
          simp only [setCachedModel_idem]

/-- C5 witness: an `openai` completion with both a 0.5 temperature override
and a 1234 max-tokens override on the freshly initialised manager leaves
both overrides on the cached client, and the next override-free call
reuses that client as is. -/
theorem C5_witness :
    completionModel.temperature = 1 / 2 ∧
    completionModel.max_tokens = 1234 ∧
    AIServiceManager.get_model aiEnv0 completionState "openai"
      = .ok (completionModel, completionState) ∧
    AIServiceManager.get_completion aiEnv0 completionState "openai" none none
      = .ok (completionModel, completionState) :=
  let h := C5_sticky_override aiEnv0 aiState0 "openai" (some (1 / 2)) (some 1234)
    completionModel completionState rfl
  ⟨h.1 (1 / 2) rfl, h.2.1 1234 rfl, h.2.2.1, h.2.2.2⟩
